import Mathlib

/-
Verification of the card model in src/core.rs of set-game-solver.

Cards are represented in the source as a struct around a u8 value; here a
card value is a Nat, with bounds (< 81, and u8 overflow checks where the
source does u8 arithmetic) made explicit.
-/

namespace SetGame

def DECK_SIZE : Nat := 81
def RANK_COLOR : Nat := 27
def RANK_COUNT : Nat := 9
def RANK_SHADE : Nat := 3
def U8_MAX : Nat := 255

inductive Color
  | Red
  | Green
  | Purple
deriving DecidableEq, Fintype

inductive Count
  | One
  | Two
  | Three
deriving DecidableEq, Fintype

inductive Shade
  | Solid
  | Striped
  | Open
deriving DecidableEq, Fintype

inductive Shape
  | Diamond
  | Squiggle
  | Oval
deriving DecidableEq, Fintype

def Color.toU8 : Color → Nat
  | .Red => 0
  | .Green => 1
  | .Purple => 2

def Color.fromU8? : Nat → Option Color
  | 0 => some .Red
  | 1 => some .Green
  | 2 => some .Purple
  | _ => none

def Count.toU8 : Count → Nat
  | .One => 0
  | .Two => 1
  | .Three => 2

def Count.fromU8? : Nat → Option Count
  | 0 => some .One
  | 1 => some .Two
  | 2 => some .Three
  | _ => none

def Shade.toU8 : Shade → Nat
  | .Solid => 0
  | .Striped => 1
  | .Open => 2

def Shade.fromU8? : Nat → Option Shade
  | 0 => some .Solid
  | 1 => some .Striped
  | 2 => some .Open
  | _ => none

def Shape.toU8 : Shape → Nat
  | .Diamond => 0
  | .Squiggle => 1
  | .Oval => 2

def Shape.fromU8? : Nat → Option Shape
  | 0 => some .Diamond
  | 1 => some .Squiggle
  | 2 => some .Oval
  | _ => none

structure CardProperties where
  color : Color
  count : Count
  shade : Shade
  shape : Shape
deriving DecidableEq, Fintype

/-- Embeds `impl From<CardProperties> for Card` (core.rs lines 37-52). -/
def propertiesToCard (p : CardProperties) : Nat :=
  p.color.toU8 * RANK_COLOR + p.count.toU8 * RANK_COUNT
    + p.shade.toU8 * RANK_SHADE + p.shape.toU8

/-- Embeds `impl From<Card> for CardProperties` (core.rs lines 54-69).
The source's `expect` panics are modelled as `none`. -/
def cardToProperties? (c : Nat) : Option CardProperties := do
  let color ← Color.fromU8? (c / RANK_COLOR)
  let r := c % RANK_COLOR
  let count ← Count.fromU8? (r / RANK_COUNT)
  let r2 := r % RANK_COUNT
  let shade ← Shade.fromU8? (r2 / RANK_SHADE)
  let shape ← Shape.fromU8? (r2 % RANK_SHADE)
  pure ⟨color, count, shade, shape⟩

/-- Embeds `impl Add for Card`: `(self.0 + other.0).rem_euclid(DECK_SIZE)`.
Pure value, valid when no u8 overflow occurs (see `cardAdd?`). -/
def cardAdd (a b : Nat) : Nat := (a + b) % DECK_SIZE

/-- Embeds `impl Sub for Card`: add DECK_SIZE before subtracting when
`self.0 < other.0`. Pure value, valid when no u8 overflow occurs. -/
def cardSub (a b : Nat) : Nat := if a < b then a + DECK_SIZE - b else a - b

/-- `impl Add for Card` with the u8 overflow of `self.0 + other.0`
modelled as `none` (a debug-build panic in the source). -/
def cardAdd? (a b : Nat) : Option Nat :=
  if a + b ≤ U8_MAX then some (cardAdd a b) else none

/-- `impl Sub for Card` with u8 overflow of `self.0 + DECK_SIZE` and u8
underflow of the final subtraction modelled as `none`. -/
def cardSub? (a b : Nat) : Option Nat :=
  if a < b then
    if a + DECK_SIZE ≤ U8_MAX ∧ b ≤ a + DECK_SIZE then some (a + DECK_SIZE - b)
    else none
  else some (a - b)

/-- The canonical deck `DECK`: `(0..DECK_SIZE).map(Card).collect()`. -/
def DECK : List Nat := List.range DECK_SIZE

/-- Ascending sort of three values, as `cards.sort()` produces on a
3-element array in `Triple::is_set`. -/
def sort3 (a b c : Nat) : Nat × Nat × Nat :=
  if a ≤ b then
    if b ≤ c then (a, b, c)
    else if a ≤ c then (a, c, b)
    else (c, a, b)
  else
    if a ≤ c then (b, a, c)
    else if b ≤ c then (b, c, a)
    else (c, b, a)

/-- A selection of three cards (core.rs `Triple`). -/
structure Triple where
  cards : Nat × Nat × Nat
deriving DecidableEq

/-- Embeds `Triple::is_set` (core.rs lines 165-174): sort the three cards
ascending, then compare the two successive mod-81 differences. -/
def Triple.is_set (t : Triple) : Bool :=
  let s := sort3 t.cards.1 t.cards.2.1 t.cards.2.2
  cardSub s.1 s.2.1 == cardSub s.2.1 s.2.2

/-- Color digit of a card value under the source encoding. -/
def colorVal (c : Nat) : Nat := c / RANK_COLOR

/-- Count digit of a card value under the source encoding. -/
def countVal (c : Nat) : Nat := c % RANK_COLOR / RANK_COUNT

/-- Shade digit of a card value under the source encoding. -/
def shadeVal (c : Nat) : Nat := c % RANK_COUNT / RANK_SHADE

/-- Shape digit of a card value under the source encoding. -/
def shapeVal (c : Nat) : Nat := c % RANK_SHADE

/-- Spec-side rule for one attribute: all three equal, or pairwise
distinct. Follows the spec wording, for comparison with `Triple.is_set`. -/
def attrRule (x y z : Nat) : Bool :=
  (x == y && y == z) || (x != y && y != z && x != z)

/-- Spec-side set predicate: each of the four attributes is all-equal or
all-distinct across the three cards. Follows the spec wording, using the
source's card encoding for the attribute digits. -/
def isSetSpec (a b c : Nat) : Bool :=
  attrRule (colorVal a) (colorVal b) (colorVal c)
    && attrRule (countVal a) (countVal b) (countVal c)
    && attrRule (shadeVal a) (shadeVal b) (shadeVal c)
    && attrRule (shapeVal a) (shapeVal b) (shapeVal c)

/-- `Vec::pop`: remove and return the last element of a list. -/
def popLast : List Nat → Option Nat × List Nat
  | [] => (none, [])
  | [a] => (some a, [])
  | a :: b :: rest =>
      let r := popLast (b :: rest)
      (r.1, a :: r.2)

/-- The full game state (core.rs `Table`). -/
structure Table where
  deck : List Nat
  board : List Nat
deriving DecidableEq

/-- Embeds `Table::new` (core.rs lines 182-189). -/
def Table.new (deck : List Nat) : Table := ⟨deck, []⟩

/-- Embeds `Table::deal` (core.rs lines 213-216): `self.deck.pop()`. -/
def Table.deal (t : Table) : Option Nat × Table :=
  let r := popLast t.deck
  (r.1, ⟨r.2, t.board⟩)

/-- Deal `n` times in sequence, collecting the results. -/
def dealN : Table → Nat → List (Option Nat) × Table
  | t, 0 => ([], t)
  | t, Nat.succ n =>
      let r := t.deal
      let rest := dealN r.2 n
      (r.1 :: rest.1, rest.2)

/-- Card values obtainable through the public interface: members of the
canonical deck, images of `propertiesToCard`, and results of card
addition and subtraction on such values. -/
inductive Reachable : Nat → Prop
  | deck (c : Nat) : c ∈ DECK → Reachable c
  | ofProperties (p : CardProperties) : Reachable (propertiesToCard p)
  | add (a b : Nat) : Reachable a → Reachable b → Reachable (cardAdd a b)
  | sub (a b : Nat) : Reachable a → Reachable b → Reachable (cardSub a b)

theorem sort3_swap_left (a b c : Nat) : sort3 b a c = sort3 a b c := by
  unfold sort3
  split_ifs <;> simp only [Prod.mk.injEq, and_true, true_and] <;> omega

theorem sort3_swap_right (a b c : Nat) : sort3 a c b = sort3 a b c := by
  unfold sort3
  split_ifs <;> simp only [Prod.mk.injEq, and_true, true_and] <;> omega

theorem is_set_sort3 (x y z : Nat) :
    Triple.is_set ⟨(x, y, z)⟩
      = (cardSub (sort3 x y z).1 (sort3 x y z).2.1
          == cardSub (sort3 x y z).2.1 (sort3 x y z).2.2) := rfl

theorem popLast_eq (l : List Nat) : popLast l = (l.getLast?, l.dropLast) := by
  induction l with
  | nil => rfl
  | cons a rest ih =>
      cases rest with
      | nil => rfl
      | cons b rest2 => simp [popLast, ih]

theorem propertiesToCard_lt (p : CardProperties) : propertiesToCard p < 81 := by
  revert p
  decide

theorem decode_isSome (c : Nat) (h : c < 81) : (cardToProperties? c).isSome = true := by
  revert h
  revert c
  decide

theorem mem_DECK_lt (c : Nat) (h : c ∈ DECK) : c < 81 := by
  simpa [DECK, DECK_SIZE, List.mem_range] using h

/-- Claim C1, failing input: the source predicate `Triple::is_set` accepts
the triple of cards 1, 2, 3, although their shade attribute has exactly two
equal values and one different, so the spec's all-same-or-all-different
rule rejects it; conversely it rejects cards 0, 5, 7, which the rule
accepts. The code's sorted mod-81 difference test is not the attribute
rule. -/
theorem is_set_not_attribute_rule :
    Triple.is_set ⟨(1, 2, 3)⟩ = true ∧ isSetSpec 1 2 3 = false ∧
    Triple.is_set ⟨(0, 5, 7)⟩ = false ∧ isSetSpec 0 5 7 = true := by
  decide

/-- Claim C2: for every card value below 81, decoding to `CardProperties`
succeeds and re-encoding returns the original value, and for every
properties tuple, encoding then decoding returns the original tuple: the
encoding is a bijection over the 81 valid values. -/
theorem card_properties_roundtrip :
    (∀ c, c < 81 → (cardToProperties? c).map propertiesToCard = some c) ∧
    (∀ p : CardProperties, cardToProperties? (propertiesToCard p) = some p) := by
  constructor
  · decide
  · decide

theorem card_properties_roundtrip_witness :
    (cardToProperties? 40).map propertiesToCard = some 40 ∧
    cardToProperties? (propertiesToCard
      ⟨Color.Green, Count.Two, Shade.Striped, Shape.Oval⟩)
      = some ⟨Color.Green, Count.Two, Shade.Striped, Shape.Oval⟩ :=
  ⟨card_properties_roundtrip.1 40 (by decide),
   card_properties_roundtrip.2 ⟨Color.Green, Count.Two, Shade.Striped, Shape.Oval⟩⟩

/-- Claim C3: `Table::deal` returns the last card of the deck and removes
it (returning `none` and leaving the deck unchanged when the deck is
empty), and never touches the board. -/
theorem deal_pops_last (t : Table) :
    (t.deal).1 = t.deck.getLast? ∧
    (t.deal).2.deck = t.deck.dropLast ∧
    (t.deal).2.board = t.board ∧
    (t.deck = [] → t.deal = (none, t)) := by
  obtain ⟨d, bd⟩ := t
  refine ⟨?_, ?_, ?_, ?_⟩
  · simp [Table.deal, popLast_eq]
  · simp [Table.deal, popLast_eq]
  · simp [Table.deal]
  · intro hd
    subst hd
    rfl

theorem deal_pops_last_witness : Table.deal ⟨[], [3]⟩ = (none, ⟨[], [3]⟩) :=
  (deal_pops_last ⟨[], [3]⟩).2.2.2 rfl

/-- Claim C4: `Triple::is_set` gives the same result under all six
permutations of its three input cards. -/
theorem is_set_permutation_invariant (a b c : Nat)
    (ha : a < 81) (hb : b < 81) (hc : c < 81) :
    Triple.is_set ⟨(a, c, b)⟩ = Triple.is_set ⟨(a, b, c)⟩ ∧
    Triple.is_set ⟨(b, a, c)⟩ = Triple.is_set ⟨(a, b, c)⟩ ∧
    Triple.is_set ⟨(b, c, a)⟩ = Triple.is_set ⟨(a, b, c)⟩ ∧
    Triple.is_set ⟨(c, a, b)⟩ = Triple.is_set ⟨(a, b, c)⟩ ∧
    Triple.is_set ⟨(c, b, a)⟩ = Triple.is_set ⟨(a, b, c)⟩ := by
  have h1 : sort3 a c b = sort3 a b c := sort3_swap_right a b c
  have h2 : sort3 b a c = sort3 a b c := sort3_swap_left a b c
  have h3 : sort3 b c a = sort3 a b c := (sort3_swap_right b a c).trans h2
  have h4 : sort3 c a b = sort3 a b c := (sort3_swap_left a c b).trans h1
  have h5 : sort3 c b a = sort3 a b c := (sort3_swap_left b c a).trans h3
  refine ⟨?_, ?_, ?_, ?_, ?_⟩ <;> rw [is_set_sort3, is_set_sort3]
  · rw [h1]
  · rw [h2]
  · rw [h3]
  · rw [h4]
  · rw [h5]

theorem is_set_permutation_invariant_witness :
    Triple.is_set ⟨(36, 0, 72)⟩ = Triple.is_set ⟨(0, 36, 72)⟩ :=
  (is_set_permutation_invariant 0 36 72 (by decide) (by decide) (by decide)).2.1

/-- Claim C5: a triple consisting of the same valid card three times
satisfies `Triple::is_set`. -/
theorem is_set_repeated_card (c : Nat) (h : c < 81) :
    Triple.is_set ⟨(c, c, c)⟩ = true := by
  rw [is_set_sort3]
  simp [sort3, cardSub]

theorem is_set_repeated_card_witness : Triple.is_set ⟨(80, 80, 80)⟩ = true :=
  is_set_repeated_card 80 (by decide)

set_option maxRecDepth 10000 in
/-- Claim C6: dealing 81 times from a table holding the full canonical
deck yields a card each time and empties the deck, and the 82nd deal
yields none. -/
theorem deal_exhausts_deck :
    ((dealN (Table.new DECK) 81).1.all (fun o => o.isSome)) = true ∧
    (dealN (Table.new DECK) 81).1.length = 81 ∧
    (dealN (Table.new DECK) 81).2.deck = [] ∧
    ((dealN (Table.new DECK) 81).2.deal).1 = none := by
  decide

set_option maxRecDepth 10000 in
/-- Claim C7: the canonical deck holds exactly 81 pairwise-distinct
cards, and every one of the 81 attribute combinations appears in it
exactly once. -/
theorem deck_complete :
    DECK.length = 81 ∧ DECK.Nodup ∧
    ∀ p : CardProperties, DECK.count (propertiesToCard p) = 1 := by
  refine ⟨by decide, by decide, by decide⟩

/-- Claim C8: the triple (Red, One, Solid, Diamond), (Green, Two, Solid,
Diamond), (Purple, Three, Solid, Diamond) satisfies `Triple::is_set`. -/
theorem example_triple_is_set :
    Triple.is_set ⟨(propertiesToCard ⟨Color.Red, Count.One, Shade.Solid, Shape.Diamond⟩,
      propertiesToCard ⟨Color.Green, Count.Two, Shade.Solid, Shape.Diamond⟩,
      propertiesToCard ⟨Color.Purple, Count.Three, Shade.Solid, Shape.Diamond⟩)⟩
      = true := by
  decide

/-- Claim C9: every card value reachable through the public interface
(the canonical deck, encoding of a properties tuple, card addition and
subtraction, and dealing from a table whose deck holds such cards) is
below 81, so decoding it to `CardProperties` succeeds and the source's
`expect` branches are never reached. -/
theorem reachable_card_lt_and_decodes :
    (∀ c, Reachable c → c < 81 ∧ (cardToProperties? c).isSome = true) ∧
    (∀ (t : Table) (c : Nat), (∀ x ∈ t.deck, Reachable x) →
      (t.deal).1 = some c → Reachable c) := by
  constructor
  · have hlt : ∀ c, Reachable c → c < 81 := by
      intro c h
      induction h with
      | deck c hc => exact mem_DECK_lt c hc
      | ofProperties p => exact propertiesToCard_lt p
      | add a b ha hb iha ihb =>
          unfold cardAdd DECK_SIZE
          omega
      | sub a b ha hb iha ihb =>
          unfold cardSub DECK_SIZE
          split <;> omega
    intro c h
    exact ⟨hlt c h, decode_isSome c (hlt c h)⟩
  · intro t c hdeck hdeal
    have hlast : (t.deal).1 = t.deck.getLast? := by
      simp [Table.deal, popLast_eq]
    rw [hlast] at hdeal
    obtain ⟨hne, heq⟩ := List.mem_getLast?_eq_getLast hdeal
    exact heq ▸ hdeck _ (List.getLast_mem hne)

theorem reachable_card_lt_and_decodes_witness :
    0 < 81 ∧ (cardToProperties? 0).isSome = true :=
  reachable_card_lt_and_decodes.1 0 (Reachable.deck 0 (by decide))

/-- Claim C10: for card values below 81, card addition and subtraction
never panic (no u8 overflow), stay below 81, and are mutually inverse
modulo 81. -/
theorem card_add_sub_inverse (a b : Nat) (ha : a < 81) (hb : b < 81) :
    cardAdd? a b = some (cardAdd a b) ∧
    cardSub? a b = some (cardSub a b) ∧
    cardAdd a b < 81 ∧ cardSub a b < 81 ∧
    cardAdd (cardSub a b) b = a ∧ cardSub (cardAdd a b) b = a := by
  unfold cardAdd? cardSub? cardAdd cardSub DECK_SIZE U8_MAX
  refine ⟨?_, ?_, ?_, ?_, ?_, ?_⟩ <;> (try split_ifs) <;>
    first
      | rfl
      | (simp only [Option.some.injEq]; omega)
      | (exfalso; omega)
      | omega

theorem card_add_sub_inverse_witness :
    cardAdd? 10 50 = some (cardAdd 10 50) ∧
    cardSub? 10 50 = some (cardSub 10 50) ∧
    cardAdd 10 50 < 81 ∧ cardSub 10 50 < 81 ∧
    cardAdd (cardSub 10 50) 50 = 10 ∧ cardSub (cardAdd 10 50) 50 = 10 :=
  card_add_sub_inverse 10 50 (by decide) (by decide)

end SetGame
